import Mathlib

/-!
Verification of the embedded-state extraction and media-reference resolution
core of `cultfit_crawler.py` (class `CultFitCrawler`).

The Python code is shallowly embedded: JSON-like values become the inductive
type `JVal`; dictionaries are ordered association lists (Python dicts preserve
insertion order); the one mutable flag (`_warned_login_required`) is threaded
explicitly; the network fetch of a pack-detail page is an oracle parameter
returning either failure (any exception in the Python `try` block) or the
script-block texts of the fetched page.  Library collaborators
(`urllib.parse.unquote`, `parse_qs`, `json.loads`, `urlparse`,
`os.path.splitext`) are modelled for the ASCII / integer fragment actually
exercised by the crawler.
-/

/-- JSON-like values as produced by `json.loads`: the untyped trees the
crawler walks.  Objects are ordered association lists with unique keys
(Python dict insertion order). -/
inductive JVal where
  | null : JVal
  | bool : Bool → JVal
  | num : Int → JVal
  | str : String → JVal
  | arr : List JVal → JVal
  | obj : List (String × JVal) → JVal
deriving Repr

/-- First binding of a key in an association list (Python dict lookup;
keys are unique in parsed objects). -/
def jGet (kvs : List (String × JVal)) (k : String) : Option JVal :=
  match kvs with
  | [] => none
  | (k', v) :: rest => if k' = k then some v else jGet rest k

/-- Dictionary lookup on an arbitrary value: `node.get(k)` when the node is a
dict, `none` otherwise. -/
def jGetV (node : JVal) (k : String) : Option JVal :=
  match node with
  | .obj kvs => jGet kvs k
  | _ => none

/-- Lookup returning the value only when it is a string (the crawler's title
and URL fields are strings). -/
def jGetStr (kvs : List (String × JVal)) (k : String) : Option String :=
  match jGet kvs k with
  | some (.str s) => some s
  | _ => none

/-- Python truthiness of a JSON value (`bool(v)`). -/
def jTruthy : JVal → Bool
  | .null => false
  | .bool b => b
  | .num n => n != 0
  | .str s => s ≠ ""
  | .arr xs => !xs.isEmpty
  | .obj kvs => !kvs.isEmpty

/-- Python `a or b` over optional JSON values: `a` when truthy, else `b`
(the final operand of an `or` chain is returned as-is). -/
def pyOrJ (a b : Option JVal) : Option JVal :=
  match a with
  | some v => if jTruthy v then some v else b
  | none => b

/-- Python `a or b` over optional strings (`None` and `""` are falsy). -/
def pyOrStr (a b : Option String) : Option String :=
  match a with
  | some s => if s = "" then b else some s
  | none => b

/-- Characters matched by Python's regex `\s` and by `str.strip()` for the
ASCII inputs the crawler sees. -/
def isPySpace (c : Char) : Bool :=
  c = ' ' || c = '\t' || c = '\n' || c = '\r' || c = '\x0b' || c = '\x0c'

/-- Prefix test on strings, evaluated character by character. -/
def strStartsWith (pre s : String) : Bool :=
  pre.toList.isPrefixOf s.toList

/-- Suffix test on strings (`str.endswith`). -/
def strEndsWith (sfx s : String) : Bool :=
  sfx.toList.reverse.isPrefixOf s.toList.reverse

/-- Split a character list at the first occurrence of a separator character
(Python `s.split(sep, 1)` when the separator occurs). -/
def splitFirstChar (sep : Char) : List Char → Option (List Char × List Char)
  | [] => none
  | c :: rest =>
    if c = sep then some ([], rest)
    else (splitFirstChar sep rest).map (fun p => (c :: p.1, p.2))

/-- Split a character list at every occurrence of a separator character
(Python `s.split(sep)`). -/
def splitAllChar (sep : Char) (cs : List Char) : List (List Char) :=
  match cs with
  | [] => [[]]
  | c :: rest =>
    if c = sep then [] :: splitAllChar sep rest
    else
      match splitAllChar sep rest with
      | [] => [[c]]
      | p :: ps => (c :: p) :: ps

/-- Hexadecimal digit test. -/
def isHexChar (c : Char) : Bool :=
  ('0' ≤ c && c ≤ '9') || ('a' ≤ c && c ≤ 'f') || ('A' ≤ c && c ≤ 'F')

/-- Value of a hexadecimal digit. -/
def hexVal (c : Char) : Nat :=
  if '0' ≤ c && c ≤ '9' then c.toNat - '0'.toNat
  else if 'a' ≤ c && c ≤ 'f' then c.toNat - 'a'.toNat + 10
  else if 'A' ≤ c && c ≤ 'F' then c.toNat - 'A'.toNat + 10
  else 0

/-- Percent-decoding of `urllib.parse.unquote` for ASCII payloads: each
`%XX` hex pair becomes the corresponding character; malformed escapes are
left untouched. -/
def percentDecode : List Char → List Char
  | [] => []
  | '%' :: a :: b :: rest =>
    if isHexChar a && isHexChar b then
      Char.ofNat (hexVal a * 16 + hexVal b) :: percentDecode rest
    else '%' :: percentDecode (a :: b :: rest)
  | c :: rest => c :: percentDecode rest

/-- Modelled from the library collaborator `urllib.parse.unquote` (ASCII
fragment): percent-decode, leaving `+` untouched. -/
def unquote (s : String) : String :=
  String.mk (percentDecode s.toList)

/-- Modelled from `urllib.parse.unquote_plus` as used inside `parse_qs`:
`+` becomes a space, then percent-decoding. -/
def unquotePlus (s : String) : String :=
  String.mk (percentDecode (s.toList.map (fun c => if c = '+' then ' ' else c)))

/-- Modelled from `urllib.parse.parse_qs` with its defaults
(`keep_blank_values=False`, separator `&`): split on `&`, split each part at
the first `=`, skip parts without `=` or with an empty raw value, decode
names and values with `unquote_plus`.  The result keeps every surviving
pair in order; dict-of-lists access is recovered by `qsFirst`. -/
def parseQsl (query : String) : List (String × String) :=
  (splitAllChar '&' query.toList).filterMap fun part =>
    match splitFirstChar '=' part with
    | none => none
    | some (name, value) =>
      if value.isEmpty then none
      else some (unquotePlus (String.mk name), unquotePlus (String.mk value))

/-- Membership test and first value of a key in the parsed query
(`k in params` and `params[k][0]`). -/
def qsFirst (params : List (String × String)) (k : String) : Option String :=
  (params.find? (fun p => p.1 = k)).map (·.2)

/-- The structured result of `_parse_curefit_url`: a Python dict with
optional entries. -/
structure CurefitInfo where
  media_url : Option String := none
  media_type : Option String := none
  session_title : Option String := none
  pack_id : Option String := none
  content_id : Option String := none
deriving Repr, DecidableEq

/-- The query component of a `curefit://` URL: everything after the first
`?`, or the empty string (`cure_url.split("?", 1)`). -/
def curefitQuery (s : String) : String :=
  match splitFirstChar '?' s.toList with
  | some (_, q) => String.mk q
  | none => ""

/-- Embedding of `CultFitCrawler._parse_curefit_url` (src/cultfit_crawler.py
lines 250-269).  Non-string input or a string without the `curefit://`
prefix yields the empty dict.  `absoluteAudioUrl` is checked before
`absoluteVideoUrl`; the selected media URL is percent-decoded a second time
with `unquote`, while `title`, `packId` and `contentId` are taken from the
parsed query directly. -/
def parseCurefitUrl : JVal → CurefitInfo
  | .str s =>
    if strStartsWith "curefit://" s then
      let params := parseQsl (curefitQuery s)
      let info : CurefitInfo :=
        match qsFirst params "absoluteAudioUrl" with
        | some v => { media_url := some (unquote v), media_type := some "audio" }
        | none =>
          match qsFirst params "absoluteVideoUrl" with
          | some v => { media_url := some (unquote v), media_type := some "video" }
          | none => {}
      let info := match qsFirst params "title" with
        | some v => { info with session_title := some v }
        | none => info
      let info := match qsFirst params "packId" with
        | some v => { info with pack_id := some v }
        | none => info
      match qsFirst params "contentId" with
      | some v => { info with content_id := some v }
      | none => info
    else {}
  | _ => {}

example :
    parseCurefitUrl (.str "curefit://x?absoluteAudioUrl=https%3A%2F%2Fcdn%2Fa.mp3&absoluteVideoUrl=https%3A%2F%2Fcdn%2Fb.mp4&title=Calm") =
      { media_url := some "https://cdn/a.mp3", media_type := some "audio",
        session_title := some "Calm" } := by decide

/-- Strip characters satisfying a predicate from both ends of a list
(Python `str.strip`). -/
def stripEnds (p : Char → Bool) (cs : List Char) : List Char :=
  ((cs.dropWhile p).reverse.dropWhile p).reverse

/-- The characters replaced by `_` in `sanitize` (regex `[<>:\\/\|\?\*]`). -/
def isIllegalFsChar (c : Char) : Bool :=
  c = '<' || c = '>' || c = ':' || c = '\\' || c = '/' || c = '|' || c = '?' || c = '*'

/-- Helper for `collapseRuns`: `inRun` records whether the previous character
was part of a run already replaced. -/
def collapseRunsAux (p : Char → Bool) (r : Char) : Bool → List Char → List Char
  | _, [] => []
  | inRun, c :: rest =>
    if p c then
      if inRun then collapseRunsAux p r true rest
      else r :: collapseRunsAux p r true rest
    else c :: collapseRunsAux p r false rest

/-- Replace each maximal run of characters satisfying `p` by the single
character `r` (regex `re.sub(cls+, r, s)`). -/
def collapseRuns (p : Char → Bool) (r : Char) (cs : List Char) : List Char :=
  collapseRunsAux p r false cs

/-- Embedding of the module-level `sanitize` helper (src/cultfit_crawler.py
lines 48-54) with its default `max_len = 80`: strip surrounding whitespace,
drop zero-width joiners, replace illegal filesystem characters by `_`,
collapse whitespace runs and `_` runs to one `_`, strip `.`/`_` from both
ends, truncate, and fall back to `"untitled"` when empty. -/
def sanitize (text : String) : String :=
  let cs := stripEnds isPySpace text.toList
  let cs := cs.filter (fun c => c ≠ '‍')
  let cs := cs.map (fun c => if isIllegalFsChar c then '_' else c)
  let cs := collapseRuns isPySpace '_' cs
  let cs := collapseRuns (fun c => c = '_') '_' cs
  let cs := stripEnds (fun c => c = '.' || c = '_') cs
  let cs := cs.take 80
  if cs.isEmpty then "untitled" else String.mk cs

/-- Modelled from the library collaborator `urllib.parse.urlparse(url).path`
for the http-style and relative URLs the crawler builds paths from: drop the
fragment, drop scheme and network location when `://` is present, drop the
query. -/
def urlPath (url : String) : String :=
  let noFrag := match splitFirstChar '#' url.toList with
    | some (before, _) => before
    | none => url.toList
  let core :=
    match splitFirstChar ':' noFrag with
    | some (_, '/' :: '/' :: rest) => rest.dropWhile (fun c => c ≠ '/' && c ≠ '?')
    | _ => noFrag
  let noQuery := match splitFirstChar '?' core with
    | some (before, _) => before
    | none => core
  String.mk noQuery

/-- The suffix of a list starting at its last `.`, if any. -/
def lastDotSuffix : List Char → Option (List Char)
  | [] => none
  | '.' :: rest =>
    (match lastDotSuffix rest with
     | some e => some e
     | none => some ('.' :: rest))
  | _ :: rest => lastDotSuffix rest

/-- Modelled from `os.path.splitext(p)[1]`: the extension of the last path
component, where leading dots of the basename never start an extension. -/
def splitextExt (p : String) : String :=
  let base := (splitAllChar '/' p.toList).getLastD []
  let rest := base.dropWhile (fun c => c = '.')
  match lastDotSuffix rest with
  | some e => String.mk e
  | none => ""

/-- Embedding of `CultFitCrawler._build_local_path` (src/cultfit_crawler.py
lines 271-274) with the default `out_root = Path("media")`, rendered as the
POSIX string `str(local_path)` stored in each media record. -/
def buildLocalPath (sec pack : String) (sessionTitle : Option String) (url : String) : String :=
  let ext0 := splitextExt (urlPath url)
  let ext := if ext0 = "" then (if strEndsWith "audio" url then ".mp3" else ".mp4") else ext0
  let fname := sanitize ((pyOrStr sessionTitle (some "session")).getD "session") ++ ext
  "media/" ++ sanitize sec ++ "/" ++ sanitize pack ++ "/" ++ fname

example : buildLocalPath "Sec" "Pack" (some "Deep") "https://cdn/a.mp3" = "media/Sec/Pack/Deep.mp3" := by decide
example : splitextExt "/a/b.c/d" = "" := by decide
example : sanitize "  He?llo   wo*rld._ " = "He_llo_wo_rld" := by decide

/-- One discovered media reference: the dict appended to `media_items`
throughout `CultFitCrawler` (section, pack, pack_description, session_title,
media_type, cdn_url, local_path). -/
structure MediaRef where
  «section» : String
  pack : String
  pack_description : String
  session_title : String
  media_type : String
  cdn_url : String
  local_path : String
deriving Repr, DecidableEq

/-- Build a media record, deriving `local_path` as the code does at each
append site. -/
def mkRef (sec pack pdesc title mtype url : String) : MediaRef :=
  { «section» := sec, pack := pack, pack_description := pdesc,
    session_title := title, media_type := mtype, cdn_url := url,
    local_path := buildLocalPath sec pack (some title) url }

/-- Media-type heuristic used at every direct-URL site:
`"audio" if media_url.endswith(".mp3") else "video"`. -/
def mtypeOf (url : String) : String :=
  if strEndsWith ".mp3" url then "audio" else "video"

/-- The cdn_url projections of a list of records. -/
def urlsOf (xs : List MediaRef) : List String := xs.map (·.cdn_url)

/-- Whitespace accepted by `json.loads` between tokens. -/
def isJsonWs (c : Char) : Bool :=
  c = ' ' || c = '\t' || c = '\n' || c = '\r'

/-- Skip JSON whitespace. -/
def skipJsonWs (cs : List Char) : List Char := cs.dropWhile isJsonWs

/-- Parse the remainder of a JSON string literal (after the opening quote),
accumulating decoded characters. -/
def parseJsonStrAux : List Char → List Char → Option (String × List Char)
  | _, [] => none
  | acc, '\\' :: 'u' :: a :: b :: c :: d :: rest =>
    if isHexChar a && isHexChar b && isHexChar c && isHexChar d then
      parseJsonStrAux
        (Char.ofNat (((hexVal a * 16 + hexVal b) * 16 + hexVal c) * 16 + hexVal d) :: acc) rest
    else none
  | acc, '\\' :: e :: rest =>
    (match e with
     | '"' => parseJsonStrAux ('"' :: acc) rest
     | '\\' => parseJsonStrAux ('\\' :: acc) rest
     | '/' => parseJsonStrAux ('/' :: acc) rest
     | 'b' => parseJsonStrAux ('\x08' :: acc) rest
     | 'f' => parseJsonStrAux ('\x0c' :: acc) rest
     | 'n' => parseJsonStrAux ('\n' :: acc) rest
     | 'r' => parseJsonStrAux ('\r' :: acc) rest
     | 't' => parseJsonStrAux ('\t' :: acc) rest
     | _ => none)
  | acc, '"' :: rest => some (String.mk acc.reverse, rest)
  | acc, ch :: rest =>
    if ch.toNat < 32 then none else parseJsonStrAux (ch :: acc) rest

/-- Decimal value of a digit list. -/
def natFromDigits (ds : List Char) : Nat :=
  ds.foldl (fun n c => n * 10 + (c.toNat - '0'.toNat)) 0

/-- Parse a JSON integer literal.  Floating-point forms (fraction or
exponent) are outside the modelled fragment and fail. -/
def parseJsonNum (cs : List Char) : Option (JVal × List Char) :=
  let neg := cs.head? = some '-'
  let cs1 := if neg then cs.tail else cs
  let digits := cs1.takeWhile Char.isDigit
  let rest := cs1.dropWhile Char.isDigit
  if digits.isEmpty then none
  else if digits.length > 1 && digits.head? = some '0' then none
  else
    match rest with
    | '.' :: _ => none
    | 'e' :: _ => none
    | 'E' :: _ => none
    | _ =>
      let n : Int := natFromDigits digits
      some (.num (if neg then -n else n), rest)

/-- Insertion into an ordered association list with Python-dict semantics: an
existing key keeps its position and gets the new value. -/
def dictInsert (kvs : List (String × JVal)) (k : String) (v : JVal) : List (String × JVal) :=
  if kvs.any (fun p => p.1 = k) then kvs.map (fun p => if p.1 = k then (k, v) else p)
  else kvs ++ [(k, v)]

/-- Build a Python dict from the textual member sequence of a JSON object
(later duplicate keys overwrite earlier ones in place). -/
def objFromMembers (ms : List (String × JVal)) : List (String × JVal) :=
  ms.foldl (fun d p => dictInsert d p.1 p.2) []

mutual
/-- Modelled from the library collaborator `json.loads` (integer fragment):
parse one JSON value, returning it with the unconsumed remainder.  The fuel
argument only bounds recursion depth and is always sufficient for the
input's length. -/
def parseJsonVal : Nat → List Char → Option (JVal × List Char)
  | 0, _ => none
  | fuel + 1, cs =>
    match skipJsonWs cs with
    | 'n' :: 'u' :: 'l' :: 'l' :: rest => some (.null, rest)
    | 't' :: 'r' :: 'u' :: 'e' :: rest => some (.bool true, rest)
    | 'f' :: 'a' :: 'l' :: 's' :: 'e' :: rest => some (.bool false, rest)
    | '"' :: rest => (parseJsonStrAux [] rest).map (fun p => (.str p.1, p.2))
    | '{' :: rest => (parseJsonObjBody fuel true rest).map (fun p => (.obj (objFromMembers p.1), p.2))
    | '[' :: rest => (parseJsonArrBody fuel true rest).map (fun p => (.arr p.1, p.2))
    | rest => parseJsonNum rest

/-- Parse the members of a JSON object after `{` (or after a `,` when
`allowEmpty` is false, since JSON forbids trailing commas). -/
def parseJsonObjBody : Nat → Bool → List Char → Option (List (String × JVal) × List Char)
  | 0, _, _ => none
  | fuel + 1, allowEmpty, cs =>
    match skipJsonWs cs with
    | '}' :: rest => if allowEmpty then some ([], rest) else none
    | '"' :: rest =>
      (match parseJsonStrAux [] rest with
       | none => none
       | some (k, r1) =>
         match skipJsonWs r1 with
         | ':' :: r2 =>
           (match parseJsonVal fuel r2 with
            | none => none
            | some (v, r3) =>
              match skipJsonWs r3 with
              | ',' :: r4 => (parseJsonObjBody fuel false r4).map (fun p => ((k, v) :: p.1, p.2))
              | '}' :: r4 => some ([(k, v)], r4)
              | _ => none)
         | _ => none)
    | _ => none

/-- Parse the elements of a JSON array after `[` (or after a `,`). -/
def parseJsonArrBody : Nat → Bool → List Char → Option (List JVal × List Char)
  | 0, _, _ => none
  | fuel + 1, allowEmpty, cs =>
    match skipJsonWs cs with
    | ']' :: rest => if allowEmpty then some ([], rest) else none
    | cs' =>
      match parseJsonVal fuel cs' with
      | none => none
      | some (v, r1) =>
        match skipJsonWs r1 with
        | ',' :: r2 => (parseJsonArrBody fuel false r2).map (fun p => (v :: p.1, p.2))
        | ']' :: r2 => some ([v], r2)
        | _ => none
end

/-- Parse a complete JSON document (`json.loads`): one value followed only
by whitespace. -/
def parseJson (s : String) : Option JVal :=
  match parseJsonVal (s.length + 1) s.toList with
  | some (v, rest) => if (skipJsonWs rest).isEmpty then some v else none
  | none => none

example : parseJson "\x7b\"a\": [1, -2, \"x\"], \"b\": null\x7d" =
    some (.obj [("a", .arr [.num 1, .num (-2), .str "x"]), ("b", .null)]) := rfl

/-- Substring membership test. -/
def containsSub (needle hay : List Char) : Bool :=
  match hay with
  | [] => needle.isEmpty
  | c :: rest => needle.isPrefixOf (c :: rest) || containsSub needle rest

/-- The literal part of the assignment-marker regex
`window\.__PRELOADED_STATE__\s*=\s*{`. -/
def markerChars : List Char := "window.__PRELOADED_STATE__".toList

/-- Match `\s*=\s*{` and return the suffix starting at the `{`. -/
def matchAfterMarker (cs : List Char) : Option (List Char) :=
  match cs.dropWhile isPySpace with
  | '=' :: rest =>
    (match rest.dropWhile isPySpace with
     | '{' :: r2 => some ('{' :: r2)
     | _ => none)
  | _ => none

/-- Find the first position where the whole marker regex matches
(`re.search`), returning the suffix starting at the object's `{`. -/
def findMarker : List Char → Option (List Char)
  | [] => none
  | c :: rest =>
    match (if markerChars.isPrefixOf (c :: rest)
           then matchAfterMarker ((c :: rest).drop markerChars.length)
           else none) with
    | some r => some r
    | none => findMarker rest

/-- Balanced-brace scan of `_extract_preloaded_state`: starting at a `{`,
increment on `{`, decrement on `}`, and return the slice up to and including
the brace where the count returns to zero (`None` when it never does).
Callers always start at a `{`, so the count is positive throughout. -/
def braceSliceAux : List Char → Nat → List Char → Option (List Char)
  | [], _, _ => none
  | c :: rest, n, acc =>
    if c = '{' then braceSliceAux rest (n + 1) (c :: acc)
    else if c = '}' then
      (if n = 1 then some ((c :: acc).reverse)
       else braceSliceAux rest (n - 1) (c :: acc))
    else braceSliceAux rest n (c :: acc)

/-- The brace-balanced slice starting at the head of the input. -/
def braceSlice (cs : List Char) : Option (List Char) := braceSliceAux cs 0 []

/-- The substitution `re.sub(r"undefined", "null", json_str)`: every
occurrence of the token, scanning left to right, including inside string
literals. -/
def replaceUndef : List Char → List Char
  | 'u' :: 'n' :: 'd' :: 'e' :: 'f' :: 'i' :: 'n' :: 'e' :: 'd' :: rest =>
    'n' :: 'u' :: 'l' :: 'l' :: replaceUndef rest
  | c :: rest => c :: replaceUndef rest
  | [] => []

/-- Per-script-block body of `CultFitCrawler._extract_preloaded_state`
(src/cultfit_crawler.py lines 212-246): skip blocks without the marker
substring, locate the assignment with the marker regex, brace-scan the
object, rewrite `undefined` to `null`, and JSON-parse; any failure makes
the block contribute nothing. -/
def extractScriptBlock (stext : String) : Option JVal :=
  let cs := stext.toList
  if !containsSub "__PRELOADED_STATE__".toList cs then none
  else
    match findMarker cs with
    | none => none
    | some fromBrace =>
      match braceSlice fromBrace with
      | none => none
      | some objChars => parseJson (String.mk (replaceUndef objChars))

/-- Embedding of `CultFitCrawler._extract_preloaded_state` over the page's
script-block texts (the HTML-to-script-blocks step is the external
`BeautifulSoup` collaborator): the first block that yields a parsed object
wins; otherwise no state. -/
def extractPreloadedState (blocks : List String) : Option JVal :=
  blocks.findSome? extractScriptBlock

example :
    extractPreloadedState
      ["var x = 1;",
       "window.__PRELOADED_STATE__ = \x7b\"a\": \x7b\"b\": 2\x7d\x7d tail junk"] =
      some (.obj [("a", .obj [("b", .num 2)])]) := rfl

/-- First of the known direct-URL keys (`downloadUrl`, `absoluteUrl`, `URL`)
whose value is present and a string, as probed at the top of
`_collect_media_recursive`. -/
def firstDirectUrl (kvs : List (String × JVal)) : Option String :=
  match jGet kvs "downloadUrl" with
  | some (.str s) => some s
  | _ =>
    match jGet kvs "absoluteUrl" with
    | some (.str s) => some s
    | _ =>
      match jGet kvs "URL" with
      | some (.str s) => some s
      | _ => none

/-- Session-title chain of `_collect_media_recursive`:
`node.get("title") or node.get("subTitle") or inherited_title or "Session"`. -/
def sessionTitleOf (kvs : List (String × JVal)) (inh : Option String) : String :=
  (pyOrStr (jGetStr kvs "title")
    (pyOrStr (jGetStr kvs "subTitle") (pyOrStr inh (some "Session")))).getD "Session"

mutual
/-- Embedding of `CultFitCrawler._collect_media_recursive`
(src/cultfit_crawler.py lines 410-461): at a dict, emit one record when a
direct-URL key is present, then recurse into every value passing
`inherited_title or node.get("title")` as the new inherited title; at a
list, recurse into every element unchanged; scalars contribute nothing. -/
def collectMediaRecursive (node : JVal) (sec pt pd : String) (inh : Option String) : List MediaRef :=
  match node with
  | .obj kvs =>
    (match firstDirectUrl kvs with
     | some u => [mkRef sec pt pd (sessionTitleOf kvs inh) (mtypeOf u) u]
     | none => [])
    ++ collectMediaKvs kvs sec pt pd (pyOrStr inh (jGetStr kvs "title"))
  | .arr xs => collectMediaArr xs sec pt pd inh
  | _ => []

/-- Recursion of `_collect_media_recursive` over the values of a dict, in
insertion order. -/
def collectMediaKvs (kvs : List (String × JVal)) (sec pt pd : String) (inh : Option String) : List MediaRef :=
  match kvs with
  | [] => []
  | (_, v) :: rest =>
    collectMediaRecursive v sec pt pd inh ++ collectMediaKvs rest sec pt pd inh

/-- Recursion of `_collect_media_recursive` over the elements of a list. -/
def collectMediaArr (xs : List JVal) (sec pt pd : String) (inh : Option String) : List MediaRef :=
  match xs with
  | [] => []
  | x :: rest =>
    collectMediaRecursive x sec pt pd inh ++ collectMediaArr rest sec pt pd inh
end

/-- The generic-title test of the dedup tie-break:
`session_title.lower().startswith("session")`. -/
def isGenericTitle (t : String) : Bool :=
  "session".toList.isPrefixOf (t.toList.map Char.toLower)

/-- One step of the per-item dedup loop (src/cultfit_crawler.py lines
393-406): a new URL is appended; a seen URL keeps the first-seen record
unless its title is generic and the new one is not, in which case the new
record replaces it in place. -/
def dedupInsert (acc : List MediaRef) (e : MediaRef) : List MediaRef :=
  if acc.any (fun x => x.cdn_url = e.cdn_url) then
    acc.map (fun x =>
      if x.cdn_url = e.cdn_url && isGenericTitle x.session_title
         && !isGenericTitle e.session_title
      then e else x)
  else acc ++ [e]

/-- The whole dedup pass: a Python dict built by `dedupInsert` and read out
as `list(dedup.values())` (insertion order). -/
def dedupByUrl (xs : List MediaRef) : List MediaRef := xs.foldl dedupInsert []

/-- String-valued dictionary lookup on an arbitrary value. -/
def jGetStrV (node : JVal) (k : String) : Option String :=
  match jGetV node k with
  | some (.str s) => some s
  | _ => none

/-- The `(source, default_title)` pairs gathered by `_extract_media_from_item`
before its final decode loop: `packIntroAction` with default "Intro",
`playAction` with default "Main", then every content-list element carrying a
`playAction`, defaulting to `"Session {idx+1}"`. -/
def collectSources (item : JVal) : List (JVal × String) :=
  (match jGetV item "packIntroAction" with
   | some v => [(v, "Intro")]
   | none => [])
  ++ (match jGetV item "playAction" with
      | some v => [(v, "Main")]
      | none => [])
  ++ (match jGetV item "content" with
      | some (.arr xs) =>
        xs.enum.filterMap (fun p =>
          match p.2 with
          | .obj ckvs =>
            (match jGet ckvs "playAction" with
             | some pa => some (pa, (jGetStr ckvs "title").getD ("Session " ++ toString (p.1 + 1)))
             | none => none)
          | _ => none)
      | _ => [])

/-- Case 2 of the content-list scan (src/cultfit_crawler.py lines 292-317):
elements without a `playAction` whose direct-URL `or`-chain is truthy yield
a record when the selected URL is a string. -/
def contentDirectEntries (xs : List JVal) (sec pt pd : String) : List MediaRef :=
  xs.enum.filterMap fun p =>
    match p.2 with
    | .obj ckvs =>
      if (jGet ckvs "playAction").isSome then none
      else
        (match pyOrJ (jGet ckvs "downloadUrl")
                 (pyOrJ (jGet ckvs "absoluteUrl") (jGet ckvs "URL")) with
         | some v =>
           if jTruthy v then
             match v with
             | .str s =>
               some (mkRef sec pt pd
                 ((jGetStr ckvs "title").getD ("Session " ++ toString (p.1 + 1))) (mtypeOf s) s)
             | _ => none
           else none
         | none => none)
    | _ => none

/-- The single-dict content case (src/cultfit_crawler.py lines 318-339):
apply the direct-URL precedence once; the selected value must be a string
(the empty string included, since `isinstance("", str)` holds). -/
def contentDictEntry (ckvs : List (String × JVal)) (sec pt pd : String) : List MediaRef :=
  match pyOrJ (jGet ckvs "downloadUrl") (pyOrJ (jGet ckvs "absoluteUrl") (jGet ckvs "URL")) with
  | some (.str s) => [mkRef sec pt pd ((jGetStr ckvs "title").getD "Session") (mtypeOf s) s]
  | _ => []

/-- Steps 2-3 of `_extract_media_from_item`: the direct scan of the `content`
field. -/
def contentScanEntries (item : JVal) (sec pt pd : String) : List MediaRef :=
  match jGetV item "content" with
  | some (.arr xs) => contentDirectEntries xs sec pt pd
  | some (.obj ckvs) => contentDictEntry ckvs sec pt pd
  | _ => []

/-- Step 4 of `_extract_media_from_item`: the unconditional recursive pass
over the `content` field with no inherited title. -/
def treeWalkEntries (item : JVal) (sec pt pd : String) : List MediaRef :=
  match jGetV item "content" with
  | some cf => collectMediaRecursive cf sec pt pd none
  | none => []

/-- The detail-link `or`-chain (src/cultfit_crawler.py lines 349-359):
`link`, `action`, `moreAction.url` (when `moreAction` is a dict),
`deeplink`, `slug`. -/
def linkPathOf (item : JVal) : Option JVal :=
  let moreUrl : Option JVal :=
    match jGetV item "moreAction" with
    | some (.obj m) => jGet m "url"
    | _ => none
  pyOrJ (jGetV item "link")
    (pyOrJ (jGetV item "action")
      (pyOrJ moreUrl (pyOrJ (jGetV item "deeplink") (jGetV item "slug"))))

/-- Recognizer for the structured login marker:
a dict whose `actionType` is `"SHOW_LOGIN_MODAL"`. -/
def isLoginModal (v : JVal) : Bool :=
  match v with
  | .obj kvs =>
    (match jGet kvs "actionType" with
     | some (.str a) => a = "SHOW_LOGIN_MODAL"
     | _ => false)
  | _ => false

/-- The final loop of `_extract_media_from_item` (src/cultfit_crawler.py
lines 365-385): decode every collected source; sources without a media URL
contribute nothing (a login-modal dict flips the one-shot warning flag);
otherwise the decoded title defaults to the collected default. -/
def decodeSources (warned : Bool) (srcs : List (JVal × String)) (sec pt pd : String) :
    List MediaRef × Bool :=
  srcs.foldl
    (fun st src =>
      let info := parseCurefitUrl src.1
      match info.media_url with
      | none => (st.1, if isLoginModal src.1 && !st.2 then true else st.2)
      | some mu =>
        (st.1 ++ [mkRef sec pt pd (info.session_title.getD src.2)
                    (info.media_type.getD "audio") mu], st.2))
    ([], warned)

/-- One widget item of the pack-detail page (src/cultfit_crawler.py lines
494-543): a string `playAction` is decoded; otherwise a first-seen
login-modal dict only flips the warning flag; otherwise the direct-URL
chain; otherwise a recursive walk of the item's `content` with the item's
title inherited. -/
def detailItemEntries (warned : Bool) (itm : List (String × JVal)) (sec pt pd : String) :
    List MediaRef × Bool :=
  match jGet itm "playAction" with
  | some (.str s) =>
    let info := parseCurefitUrl (.str s)
    (match info.media_url with
     | some mu =>
       ([mkRef sec pt pd (info.session_title.getD ((jGetStr itm "title").getD "Session"))
           (info.media_type.getD "audio") mu], warned)
     | none => ([], warned))
  | pa =>
    if (match pa with | some v => isLoginModal v | none => false) && !warned then ([], true)
    else
      match pyOrJ (jGet itm "downloadUrl") (pyOrJ (jGet itm "absoluteUrl") (jGet itm "URL")) with
      | some (.str s) =>
        ([mkRef sec pt pd ((jGetStr itm "title").getD "Session") (mtypeOf s) s], warned)
      | _ =>
        match jGet itm "content" with
        | some (.arr xs) => (collectMediaRecursive (.arr xs) sec pt pd (jGetStr itm "title"), warned)
        | some (.obj k2) => (collectMediaRecursive (.obj k2) sec pt pd (jGetStr itm "title"), warned)
        | _ => ([], warned)

/-- Fold of `detailItemEntries` over a widget's `items`, skipping non-dict
items and threading the warning flag. -/
def detailItemsFold (warned : Bool) (items : List JVal) (sec pt pd : String) :
    List MediaRef × Bool :=
  items.foldl
    (fun st itm =>
      match itm with
      | .obj kvs =>
        let r := detailItemEntries st.2 kvs sec pt pd
        (st.1 ++ r.1, r.2)
      | _ => st)
    ([], warned)

/-- Fold over `productWidgets`, skipping non-dict widgets and widgets whose
`items` is not a list. -/
def detailWidgetsFold (warned : Bool) (ws : List JVal) (sec pt pd : String) :
    List MediaRef × Bool :=
  ws.foldl
    (fun st wid =>
      match wid with
      | .obj wkvs =>
        (match jGet wkvs "items" with
         | some (.arr its) =>
           let r := detailItemsFold st.2 its sec pt pd
           (st.1 ++ r.1, r.2)
         | _ => st)
      | _ => st)
    ([], warned)

/-- Embedding of `CultFitCrawler._extract_from_pack_detail`
(src/cultfit_crawler.py lines 467-558).  The network fetch plus HTML
splitting is the oracle `fetch`; `Except.error` stands for any exception in
the Python `try` block, which the code swallows by returning the empty
list.  Otherwise: extract the state, take the first dict value under
`cultDIYPack` (an empty or missing pack dict yields nothing), walk
`productWidgets`, and finish with a recursive walk of the pack's `content`
with the pack title inherited. -/
def extractFromPackDetail (fetch : String → Except Unit (List String)) (warned : Bool)
    (packUrl sec pt pd : String) : List MediaRef × Bool :=
  match fetch packUrl with
  | .error _ => ([], warned)
  | .ok blocks =>
    match extractPreloadedState blocks with
    | none => ([], warned)
    | some state =>
      if !jTruthy state then ([], warned)
      else
        let packDict : Option (List (String × JVal)) :=
          match jGetV state "cultDIYPack" with
          | some (.obj kvs) =>
            (kvs.map (·.2)).findSome?
              (fun v => match v with | JVal.obj k2 => some k2 | _ => none)
          | _ => none
        match packDict with
        | some pdk =>
          if pdk.isEmpty then ([], warned)
          else
            let widgetPart :=
              match jGet pdk "productWidgets" with
              | some (.arr ws) => detailWidgetsFold warned ws sec pt pd
              | _ => ([], warned)
            let fallback :=
              match jGet pdk "content" with
              | some cf => collectMediaRecursive cf sec pt pd (some pt)
              | none => []
            (widgetPart.1 ++ fallback, widgetPart.2)
        | none => ([], warned)

/-- Step 5 of `_extract_media_from_item` (src/cultfit_crawler.py lines
360-363): follow the detail link when it is a site-relative string path. -/
def detailStep (fetch : String → Except Unit (List String)) (warned : Bool)
    (item : JVal) (sec pt pd : String) : List MediaRef × Bool :=
  match linkPathOf item with
  | some (.str s) =>
    if strStartsWith "/" s then
      extractFromPackDetail fetch warned ("https://www.cult.fit" ++ s) sec pt pd
    else ([], warned)
  | _ => ([], warned)

/-- The pre-dedup record sequence of `_extract_media_from_item`
(src/cultfit_crawler.py lines 276-391), in the order the Python body appends:
content-scan entries (steps 2-3), the recursive pass (step 4), the
detail-page entries (step 5), and finally the decoded action sources
(step 1 plus nested content play-actions). -/
def extractMediaItemsRaw (fetch : String → Except Unit (List String)) (warned : Bool)
    (item : JVal) (sec pt pd : String) : List MediaRef × Bool :=
  let a := contentScanEntries item sec pt pd
  let b := treeWalkEntries item sec pt pd
  let c := detailStep fetch warned item sec pt pd
  let d := decodeSources c.2 (collectSources item) sec pt pd
  (a ++ b ++ c.1 ++ d.1, d.2)

/-- Embedding of `_extract_media_from_item`: the raw sequence followed by
the per-item dedup. -/
def extractMediaFromItem (fetch : String → Except Unit (List String)) (warned : Bool)
    (item : JVal) (sec pt pd : String) : List MediaRef × Bool :=
  let raw := extractMediaItemsRaw fetch warned item sec pt pd
  (dedupByUrl raw.1, raw.2)

/-- One section of `CultFitCrawler.crawl` (src/cultfit_crawler.py lines
568-591): given the extracted state of the section page (`none` for a fetch
or extraction failure), walk `cultDIYPackBrowse.widgets[*].items[*]` and
resolve each item. -/
def crawlSectionRefs (fetch : String → Except Unit (List String)) (warned : Bool)
    (secName : String) (state : Option JVal) : List MediaRef × Bool :=
  match state with
  | none => ([], warned)
  | some st =>
    if !jTruthy st then ([], warned)
    else
      match jGetV st "cultDIYPackBrowse" with
      | none => ([], warned)
      | some browse =>
        match jGetV browse "widgets" with
        | some (.arr ws) =>
          ws.foldl
            (fun stAcc w =>
              match jGetV w "items" with
              | some (.arr its) =>
                its.foldl
                  (fun acc2 item =>
                    let pt := (jGetStrV item "title").getD "Unknown Pack"
                    let pdesc := (jGetStrV item "description").getD ""
                    let r := extractMediaFromItem fetch acc2.2 item secName pt pdesc
                    (acc2.1 ++ r.1, r.2))
                  stAcc
              | _ => stAcc)
            ([], warned)
        | _ => ([], warned)

/-- The flat `media_items` list accumulated by `crawl` over all sections
(each given with its extracted state), starting with a fresh warning flag. -/
def crawlPure (fetch : String → Except Unit (List String))
    (sections : List (String × Option JVal)) : List MediaRef :=
  (sections.foldl
    (fun st secp =>
      let r := crawlSectionRefs fetch st.2 secp.1 secp.2
      (st.1 ++ r.1, r.2))
    (([] : List MediaRef), false)).1

/-- Fetch oracle that always fails (no item below follows a detail link). -/
def noFetch : String → Except Unit (List String) := fun _ => .error ()

/-- The URL projection of one dedup step: replacement never changes the URL
multiset, and a fresh URL is appended. -/
lemma dedupInsert_urls (acc : List MediaRef) (e : MediaRef) :
    urlsOf (dedupInsert acc e) =
      if acc.any (fun x => x.cdn_url = e.cdn_url) then urlsOf acc
      else urlsOf acc ++ [e.cdn_url] := by
  unfold dedupInsert urlsOf
  split
  · rw [List.map_map]
    refine List.map_congr_left ?_
    intro x _
    simp only [Function.comp_apply]
    split
    · next h =>
      have hx : x.cdn_url = e.cdn_url := by
        simp only [Bool.and_eq_true, decide_eq_true_eq] at h
        exact h.1.1
      exact hx.symm
    · rfl
  · simp

/-- One dedup step preserves distinctness of the URLs seen so far. -/
lemma dedupInsert_nodup (acc : List MediaRef) (e : MediaRef)
    (h : (urlsOf acc).Nodup) : (urlsOf (dedupInsert acc e)).Nodup := by
  rw [dedupInsert_urls]
  split
  · exact h
  · next hany =>
    rw [List.nodup_append]
    refine ⟨h, List.nodup_singleton _, ?_⟩
    intro u hu hv
    simp only [List.mem_singleton] at hv
    subst hv
    simp only [List.any_eq_true, decide_eq_true_eq, not_exists] at hany
    obtain ⟨x, hx, hxe⟩ := List.mem_map.mp hu
    exact hany x ⟨hx, hxe⟩

/-- The dedup fold keeps URLs distinct from any distinct starting state. -/
lemma foldl_dedupInsert_nodup (xs : List MediaRef) :
    ∀ acc, (urlsOf acc).Nodup → (urlsOf (xs.foldl dedupInsert acc)).Nodup := by
  induction xs with
  | nil => intro acc h; simpa using h
  | cons x rest ih => intro acc h; exact ih _ (dedupInsert_nodup acc x h)

/-- The per-item dedup output never contains two records with the same
`cdn_url`. -/
lemma dedupByUrl_nodup (xs : List MediaRef) : (urlsOf (dedupByUrl xs)).Nodup := by
  unfold dedupByUrl
  exact foldl_dedupInsert_nodup xs [] (by simp [urlsOf])

/-- Concrete pack item exercising both a step-1 play action and a step-2
content-list direct URL. -/
def item1 : JVal :=
  .obj [("playAction", .str "curefit://x?absoluteAudioUrl=a.mp3"),
        ("content", .arr [.obj [("downloadUrl", .str "b.mp3")]])]

/-- C1 counterexample: on `item1` the pre-dedup sequence of
`_extract_media_from_item` lists the step-2 content entry ("Session 1",
b.mp3) and the step-4 tree-walk entry ("Session", b.mp3) first, and the
step-1 decoded play action ("Main", a.mp3) last — so a reference produced
by step 1 does not precede the references of the later steps, refuting the
claimed ordering. -/
theorem c1_counterexample :
    ((extractMediaItemsRaw noFetch false item1 "S" "P" "D").1.map
        (fun r => (r.session_title, r.cdn_url))) =
      [("Session 1", "b.mp3"), ("Session", "b.mp3"), ("Main", "a.mp3")] := by decide

/-- C1 (amended): within one pack item the pre-dedup sequence of discovered
references is ordered by the code's append order — the content-field scan
(steps 2-3) first, then the unconditional recursive pass (step 4), then the
secondary detail-page fetch (step 5), and the decoded intro/play action
references (step 1, defaults "Intro"/"Main", plus nested content play
actions) last. -/
theorem c1_step_order_amended (fetch : String → Except Unit (List String)) (w : Bool)
    (item : JVal) (sec pt pd : String) :
    (extractMediaItemsRaw fetch w item sec pt pd).1 =
      contentScanEntries item sec pt pd
      ++ treeWalkEntries item sec pt pd
      ++ (detailStep fetch w item sec pt pd).1
      ++ (decodeSources (detailStep fetch w item sec pt pd).2
            (collectSources item) sec pt pd).1 := rfl

/-- C1 witness: the amended ordering instantiated on `item1`. -/
theorem c1_step_order_witness :
    (extractMediaItemsRaw noFetch false item1 "S" "P" "D").1 =
      contentScanEntries item1 "S" "P" "D"
      ++ treeWalkEntries item1 "S" "P" "D"
      ++ (detailStep noFetch false item1 "S" "P" "D").1
      ++ (decodeSources (detailStep noFetch false item1 "S" "P" "D").2
            (collectSources item1) "S" "P" "D").1 :=
  c1_step_order_amended noFetch false item1 "S" "P" "D"

/-- C2: for two references to the same `cdn_url` where the first-discovered
title is the generic placeholder and the other is not, the per-item dedup
keeps the record with the non-generic title in either discovery order, so
the deduplicated result is order-independent. -/
theorem c2_dedup_tiebreak (e1 e2 : MediaRef)
    (hurl : e1.cdn_url = e2.cdn_url)
    (hg1 : isGenericTitle e1.session_title = true)
    (hg2 : isGenericTitle e2.session_title = false) :
    dedupByUrl [e1, e2] = [e2] ∧ dedupByUrl [e2, e1] = [e2] := by
  constructor <;> simp [dedupByUrl, dedupInsert, hurl, hg1, hg2]

/-- Record titled with the generic placeholder "Session". -/
def refSession : MediaRef := mkRef "Sec" "Pack" "" "Session" "audio" "x.mp3"

/-- Record titled "Deep Relaxation" for the same URL. -/
def refDeep : MediaRef := mkRef "Sec" "Pack" "" "Deep Relaxation" "audio" "x.mp3"

/-- C2 witness: the tie-break on the spec's own example, in both orders. -/
theorem c2_dedup_tiebreak_witness :
    dedupByUrl [refSession, refDeep] = [refDeep] ∧
    dedupByUrl [refDeep, refSession] = [refDeep] :=
  c2_dedup_tiebreak refSession refDeep rfl (by decide) (by decide)

/-- C3 counterexample: in the tree
`{"title":"Top","sub":{"title":"Deep","leaf":{"downloadUrl":"a.mp3"}}}`,
walked with no inherited title, the reference below the deeper titled node
is titled "Top" — the ancestor's title — not the deeper node's "Deep",
refuting the claim that deeper titles override inherited ones. -/
theorem c3_counterexample :
    ((collectMediaRecursive
        (.obj [("title", .str "Top"),
               ("sub", .obj [("title", .str "Deep"),
                             ("leaf", .obj [("downloadUrl", .str "a.mp3")])])])
        "S" "P" "D" none).map (·.session_title)) = ["Top"] ∧
    ("Top" : String) ≠ "Deep" := ⟨by decide, by decide⟩

/-- C3 (amended): when the tree walker recurses into the values of a
mapping, the inherited title passed down is the previously inherited title
whenever one is present (and non-empty); a node's own title is adopted only
when no inherited title exists — so the shallowest titled ancestor wins and
deeper titles never override it. -/
theorem c3_title_inheritance_amended :
    (∀ (sub : JVal) (sec pt pd t s : String), t ≠ "" →
      collectMediaRecursive (.obj [("title", .str s), ("k", sub)]) sec pt pd (some t) =
        collectMediaRecursive sub sec pt pd (some t)) ∧
    (∀ (sub : JVal) (sec pt pd s : String),
      collectMediaRecursive (.obj [("title", .str s), ("k", sub)]) sec pt pd none =
        collectMediaRecursive sub sec pt pd (some s)) := by
  constructor <;> intros <;>
    simp [collectMediaRecursive, collectMediaKvs, firstDirectUrl, jGet, jGetStr, pyOrStr, *]

/-- C3 witness: the amended propagation rule at a concrete titled node under
an inherited title, and at the same node with none. -/
theorem c3_title_inheritance_witness :
    (collectMediaRecursive
        (.obj [("title", .str "Deep"), ("k", .obj [("downloadUrl", .str "a.mp3")])])
        "S" "P" "D" (some "Anc") =
      collectMediaRecursive (.obj [("downloadUrl", .str "a.mp3")]) "S" "P" "D" (some "Anc")) ∧
    (collectMediaRecursive
        (.obj [("title", .str "Deep"), ("k", .obj [("downloadUrl", .str "a.mp3")])])
        "S" "P" "D" none =
      collectMediaRecursive (.obj [("downloadUrl", .str "a.mp3")]) "S" "P" "D" (some "Deep")) :=
  ⟨c3_title_inheritance_amended.1 (.obj [("downloadUrl", .str "a.mp3")]) "S" "P" "D" "Anc" "Deep"
      (by decide),
   c3_title_inheritance_amended.2 (.obj [("downloadUrl", .str "a.mp3")]) "S" "P" "D" "Deep"⟩

/-- C4: the tree walker with no inherited title on
`{"title":"Outer","content":[{"downloadUrl":"a.mp3"},{"subTitle":"Inner","URL":"b.mp4"}]}`
yields exactly two references in document order: first titled "Outer"
(inherited from the top node) with media type audio, second titled "Inner"
(its own subtitle) with media type video. -/
theorem c4_treewalker_example :
    (collectMediaRecursive
        (.obj [("title", .str "Outer"),
               ("content", .arr [.obj [("downloadUrl", .str "a.mp3")],
                                 .obj [("subTitle", .str "Inner"), ("URL", .str "b.mp4")]])])
        "Sec" "Pack" "" none).map (fun r => (r.session_title, r.media_type, r.cdn_url)) =
      [("Outer", "audio", "a.mp3"), ("Inner", "video", "b.mp4")] := by decide

/-- Mapping nested `d` levels deep with a single media leaf at the bottom. -/
def nestDepth : Nat → JVal
  | 0 => .obj [("downloadUrl", .str "a.mp3")]
  | n + 1 => .obj [("k", nestDepth n)]

/-- C7: the tree walker has no depth cap — for every nesting depth `d`,
however large, the walk of `nestDepth d` still reaches and emits the leaf
reference, so no branch is ever truncated at a safety bound (and the Python
original, recursing equally unboundedly, exhausts the interpreter recursion
limit instead of truncating). -/
theorem c7_no_depth_truncation (d : Nat) :
    (collectMediaRecursive (nestDepth d) "S" "P" "" none).map (·.cdn_url) = ["a.mp3"] := by
  induction d with
  | zero => rfl
  | succ n ih =>
    simp [nestDepth, collectMediaRecursive, collectMediaKvs, firstDirectUrl, jGet,
      jGetStr, pyOrStr, ih]

/-- C7 witness: a depth-60 branch (beyond the design note's example cap of
50) is still fully traversed. -/
theorem c7_no_depth_witness :
    (collectMediaRecursive (nestDepth 60) "S" "P" "" none).map (·.cdn_url) = ["a.mp3"] :=
  c7_no_depth_truncation 60

/-- The doubly-encoded C10 input. -/
def c10url : String := "curefit://x?absoluteAudioUrl=a%2520b.mp3&title=t%2520u&packId=p%2520q"

/-- C10: the parsed query value of `absoluteAudioUrl` is decoded once
(`%2520` to `%20`), but the emitted media URL is decoded a second time by
`unquote` (`%20` to a space), while `title` and `packId` keep the
once-decoded form — and the twice-decoded URL differs from the once-decoded
query value. -/
theorem c10_double_decode :
    qsFirst (parseQsl (curefitQuery c10url)) "absoluteAudioUrl" = some "a%20b.mp3" ∧
    parseCurefitUrl (.str c10url) =
      { media_url := some "a b.mp3", media_type := some "audio",
        session_title := some "t%20u", pack_id := some "p%20q" } ∧
    ("a b.mp3" : String) ≠ "a%20b.mp3" :=
  ⟨by decide, by decide, by decide⟩

/-- C6: whenever a `curefit://` URL's parsed query contains the
`absoluteAudioUrl` key, the decoder selects audio — regardless of whether
`absoluteVideoUrl` is also present — and the emitted media URL is the
additionally `unquote`-decoded first query value of that key. -/
theorem c6_audio_precedence (s : String)
    (hpre : strStartsWith "curefit://" s = true)
    (haud : (qsFirst (parseQsl (curefitQuery s)) "absoluteAudioUrl").isSome = true) :
    (parseCurefitUrl (.str s)).media_type = some "audio" ∧
    (parseCurefitUrl (.str s)).media_url =
      (qsFirst (parseQsl (curefitQuery s)) "absoluteAudioUrl").map unquote := by
  simp only [parseCurefitUrl]
  rw [if_pos hpre]
  cases haudEq : qsFirst (parseQsl (curefitQuery s)) "absoluteAudioUrl" with
  | none => rw [haudEq] at haud; simp at haud
  | some v =>
    simp only [haudEq]
    cases qsFirst (parseQsl (curefitQuery s)) "title" <;>
      cases qsFirst (parseQsl (curefitQuery s)) "packId" <;>
        cases qsFirst (parseQsl (curefitQuery s)) "contentId" <;>
          simp

/-- The URL of testable property 3, carrying both audio and video keys. -/
def c6url : String :=
  "curefit://x?absoluteAudioUrl=https%3A%2F%2Fcdn%2Fa.mp3&absoluteVideoUrl=https%3A%2F%2Fcdn%2Fb.mp4&title=Calm"

/-- C6 witness: on the spec's concrete input the decoder picks audio with
source URL `https://cdn/a.mp3` and session title "Calm". -/
theorem c6_audio_precedence_witness :
    ((parseCurefitUrl (.str c6url)).media_type = some "audio" ∧
     (parseCurefitUrl (.str c6url)).media_url =
       (qsFirst (parseQsl (curefitQuery c6url)) "absoluteAudioUrl").map unquote) ∧
    parseCurefitUrl (.str c6url) =
      { media_url := some "https://cdn/a.mp3", media_type := some "audio",
        session_title := some "Calm" } :=
  ⟨c6_audio_precedence c6url (by decide) (by decide), by decide⟩

/-- A script block assigning a syntactically valid object whose string value
contains the token `undefined`. -/
def c5UndefBlock : String := "window.__PRELOADED_STATE__ = \x7b\"a\": \"undefined\"\x7d"

/-- C5 counterexample: the assigned text parses to `{"a": "undefined"}`, but
the extractor returns `{"a": "null"}` — the blanket `undefined` → `null`
substitution rewrites string contents too, so the extractor does not return
exactly the parse of the assigned text. -/
theorem c5_counterexample :
    extractPreloadedState [c5UndefBlock] = some (.obj [("a", .str "null")]) ∧
    parseJson "\x7b\"a\": \"undefined\"\x7d" = some (.obj [("a", .str "undefined")]) ∧
    JVal.obj [("a", JVal.str "null")] ≠ JVal.obj [("a", JVal.str "undefined")] :=
  ⟨rfl, rfl, by simp⟩

/-- C5 (amended): the extractor returns the per-block extraction result of
the first script block that yields one — the JSON parse, after rewriting
every occurrence of `undefined` to `null`, of the balanced-brace segment
starting at the first `{` after the assignment marker — and this result is
unaffected by any preceding blocks from which nothing is extracted (in
particular all blocks lacking the marker) and by all following blocks.  It
is not always the exact parse of the assigned text (see the
counterexample). -/
theorem c5_state_extraction_amended (pre : List String) (b : String) (post : List String)
    (v : JVal) (hpre : ∀ x ∈ pre, extractScriptBlock x = none)
    (hb : extractScriptBlock b = some v) :
    extractPreloadedState (pre ++ b :: post) = some v := by
  unfold extractPreloadedState
  induction pre with
  | nil => simp [List.findSome?_cons, hb]
  | cons p rest ih =>
    have hp : extractScriptBlock p = none := hpre p (by simp)
    rw [List.cons_append, List.findSome?_cons, hp]
    exact ih (fun x hx => hpre x (by simp [hx]))

/-- A script block with nested braces and no trailing statement
terminator. -/
def c5GoodBlock : String :=
  "window.__PRELOADED_STATE__ = \x7b\"a\": \x7b\"b\": [1, 2]\x7d, \"c\": \"x\"\x7d"

/-- C5 witness: surrounded by an unrelated script block before and junk
after, the nested-brace, terminator-free assignment is recovered exactly. -/
theorem c5_state_extraction_witness :
    extractPreloadedState ["var unrelated = 1;", c5GoodBlock, "more junk"] =
      some (.obj [("a", .obj [("b", .arr [.num 1, .num 2])]), ("c", .str "x")]) :=
  c5_state_extraction_amended ["var unrelated = 1;"] c5GoodBlock ["more junk"] _
    (by intro x hx; simp only [List.mem_singleton] at hx; subst hx; rfl) rfl

/-- A pack item whose only media lies behind its detail-page link. -/
def item8 : JVal := .obj [("link", .str "/pack/x")]

/-- A detail page whose embedded state exposes one session through a widget
play action. -/
def block8 : String :=
  "window.__PRELOADED_STATE__ = \x7b\"cultDIYPack\": \x7b\"p1\": \x7b\"productWidgets\": [\x7b\"items\": [\x7b\"playAction\": \"curefit://x?absoluteAudioUrl=deep.mp3&title=Deep\"\x7d]\x7d]\x7d\x7d\x7d"

/-- The reference resolved from `block8`. -/
def ref8 : MediaRef := mkRef "Sec" "Pack" "" "Deep" "audio" "deep.mp3"

set_option maxRecDepth 40000 in
/-- C8: any failure of the secondary detail-page fetch (the oracle's
`error`, standing for any exception in the Python `try`) makes the
detail step contribute exactly zero references without propagating; an item
whose only media lies behind the detail link therefore yields zero
references on failure, while the same item yields exactly its reference
when the fetch succeeds. -/
theorem c8_detail_failure_isolation :
    (∀ (fetch : String → Except Unit (List String)) (w : Bool) (url sec pt pd : String),
      fetch url = .error () → extractFromPackDetail fetch w url sec pt pd = ([], w)) ∧
    (∀ fetch : String → Except Unit (List String),
      fetch "https://www.cult.fit/pack/x" = .error () →
      (extractMediaFromItem fetch false item8 "Sec" "Pack" "").1 = []) ∧
    (∀ fetch : String → Except Unit (List String),
      fetch "https://www.cult.fit/pack/x" = .ok [block8] →
      (extractMediaFromItem fetch false item8 "Sec" "Pack" "").1 = [ref8]) := by
  refine ⟨?_, ?_, ?_⟩
  · intro fetch w url sec pt pd h
    unfold extractFromPackDetail
    rw [h]
  · intro fetch h
    have hd : detailStep fetch false item8 "Sec" "Pack" "" = ([], false) := by
      have heq : detailStep fetch false item8 "Sec" "Pack" "" =
          extractFromPackDetail fetch false "https://www.cult.fit/pack/x" "Sec" "Pack" "" := rfl
      rw [heq]
      unfold extractFromPackDetail
      rw [h]
    simp only [extractMediaFromItem, extractMediaItemsRaw, hd]
    decide
  · intro fetch h
    have hd : detailStep fetch false item8 "Sec" "Pack" "" = ([ref8], false) := by
      have heq : detailStep fetch false item8 "Sec" "Pack" "" =
          extractFromPackDetail fetch false "https://www.cult.fit/pack/x" "Sec" "Pack" "" := rfl
      rw [heq]
      unfold extractFromPackDetail
      rw [h]
      decide
    simp only [extractMediaFromItem, extractMediaItemsRaw, hd]
    decide

/-- C8 witness: the three parts applied at concrete failing and succeeding
fetch oracles. -/
theorem c8_detail_failure_witness :
    extractFromPackDetail noFetch true "u" "s" "p" "d" = ([], true) ∧
    (extractMediaFromItem noFetch false item8 "Sec" "Pack" "").1 = [] ∧
    (extractMediaFromItem (fun _ => .ok [block8]) false item8 "Sec" "Pack" "").1 = [ref8] :=
  ⟨c8_detail_failure_isolation.1 noFetch true "u" "s" "p" "d" rfl,
   c8_detail_failure_isolation.2.1 noFetch rfl,
   c8_detail_failure_isolation.2.2 (fun _ => .ok [block8]) rfl⟩

/-- A pack item carrying one direct media URL under a dict `content`. -/
def itemDup : JVal := .obj [("content", .obj [("downloadUrl", .str "x.mp3")])]

/-- A crawl input with one section whose state lists the same item twice
(two packs sharing one asset). -/
def secsDup : List (String × Option JVal) :=
  [("Sec", some (.obj [("cultDIYPackBrowse",
      .obj [("widgets", .arr [.obj [("items", .arr [itemDup, itemDup])]])])]))]

/-- C9 counterexample: the flat `media_items` list produced by the crawl
over `secsDup` carries the URL `x.mp3` twice — per-item dedup does not
prevent duplicate `cdn_url` entries across items, so the flat list is not
duplicate-free. -/
theorem c9_counterexample :
    (crawlPure noFetch secsDup).map (·.cdn_url) = ["x.mp3", "x.mp3"] ∧
    ¬ ((crawlPure noFetch secsDup).map (·.cdn_url)).Nodup :=
  ⟨by decide, by decide⟩

/-- C9 (amended): extraction is deterministic — the crawl over identical
input (with the same fetch oracle) yields the identical flat list — and no
single item's deduplicated contribution contains two records with the same
`cdn_url`; but the flat concatenation across items may repeat a URL (see
the counterexample). -/
theorem c9_determinism_amended :
    (∀ (fetch : String → Except Unit (List String)) (secs : List (String × Option JVal)),
      crawlPure fetch secs = crawlPure fetch secs) ∧
    (∀ (fetch : String → Except Unit (List String)) (w : Bool) (item : JVal)
        (sec pt pd : String),
      (urlsOf (extractMediaFromItem fetch w item sec pt pd).1).Nodup) := by
  refine ⟨fun _ _ => rfl, fun fetch w item sec pt pd => ?_⟩
  show (urlsOf (dedupByUrl (extractMediaItemsRaw fetch w item sec pt pd).1)).Nodup
  exact dedupByUrl_nodup _

/-- C9 witness: the amended statement at the concrete duplicate input. -/
theorem c9_determinism_witness :
    crawlPure noFetch secsDup = crawlPure noFetch secsDup ∧
    (urlsOf (extractMediaFromItem noFetch false itemDup "Sec" "Pack" "").1).Nodup :=
  ⟨c9_determinism_amended.1 noFetch secsDup,
   c9_determinism_amended.2 noFetch false itemDup "Sec" "Pack" ""⟩
